import Mathlib

/-!
Shallow embedding of the telemetry alignment and physics-analytics
pipeline of the f1-telemetry-physics-lab repository, with theorems
settling the frozen claims about it.

Numeric channel values (distances in meters, speeds in km/h, times in
seconds, pedal inputs in percent) are modelled as rationals; on the
field operations and comparisons used by the embedded functions, the
rational model agrees with the source's floating-point arithmetic for
every property stated below.
-/

/-- A telemetry DataFrame restricted to the channels read by
`compute_delta_time` (`alignment.py`): a row count `n` together with
the `Distance` and `Speed` columns, given as total functions on row
indices (only indices below `n` are ever read). -/
structure Telemetry where
  n : ℕ
  dist : ℕ → ℚ
  speed : ℕ → ℚ

/-- One per-sample time increment used by `compute_delta_time`
(`alignment.py` lines 222-233): the distance step
`np.diff(distances, prepend=distances[0])` at row `i` (which is `0` at
`i = 0`), divided by the speed shifted by `epsilon = (1/10)` km/h and
converted to m/s. -/
def timeDeltaOf (dist speed : ℕ → ℚ) (i : ℕ) : ℚ :=
  (if i = 0 then 0 else dist i - dist (i - 1)) / ((speed i + (1/10)) / (18/5))

/-- The error paths of `compute_delta_time`: the explicit `ValueError`
for traces of different lengths (`alignment.py` lines 212-216), and the
`IndexError` raised by `distances[0]` in
`np.diff(distances, prepend=distances[0])` (`alignment.py` line 224)
when the equal-length traces are empty. -/
inductive DeltaTimeError where
  | length_mismatch (len1 len2 : ℕ) : DeltaTimeError
  | empty_distance : DeltaTimeError
deriving DecidableEq

/-- `compute_delta_time` (`alignment.py` lines 192-238).  The source
first raises `ValueError` when the two traces have different lengths;
for equal-length empty traces the `distances[0]` read on line 224 then
raises `IndexError`; otherwise it returns
`np.cumsum(time_deltas1 - time_deltas2)`.  Both drivers' time deltas
are built from driver 1's `Distance` column, exactly as in the source;
the distance grids themselves are never compared. -/
def computeDeltaTime (t1 t2 : Telemetry) : Except DeltaTimeError (List ℚ) :=
  if t1.n ≠ t2.n then .error (.length_mismatch t1.n t2.n)
  else if t1.n = 0 then .error .empty_distance
  else
    .ok ((List.range t1.n).map fun k =>
      ∑ i ∈ Finset.range (k + 1),
        (timeDeltaOf t1.dist t1.speed i - timeDeltaOf t1.dist t2.speed i))

/-- Concrete two-sample trace used as a witness input. -/
def deltaTraceA : Telemetry :=
  { n := 2, dist := fun i => 10 * i, speed := fun _ => 200 }

/-- Concrete two-sample trace used as a witness input (slower driver on
the same grid). -/
def deltaTraceB : Telemetry :=
  { n := 2, dist := fun i => 10 * i, speed := fun _ => 100 }

/-- Concrete one-sample trace on the grid starting at 0. -/
def deltaTraceC : Telemetry :=
  { n := 1, dist := fun _ => 0, speed := fun _ => 100 }

/-- Concrete one-sample trace of the same length as `deltaTraceC` but on
a different distance grid. -/
def deltaTraceD : Telemetry :=
  { n := 1, dist := fun _ => 5, speed := fun _ => 100 }

/-- Concrete empty trace (zero rows). -/
def deltaTraceE : Telemetry :=
  { n := 0, dist := fun _ => 0, speed := fun _ => 0 }

/-- A raw per-lap telemetry trace as consumed by `align_laps`
(`alignment.py`): the required `Distance` and `Speed` columns.  The
validation concerns expressible in this model (emptiness) are checked by
`alignLaps`; NaN handling lives outside the rational model. -/
structure RawTrace where
  dist : List ℚ
  speed : List ℚ

/-- An interpolated trace produced by `interpolate_telemetry`: the
uniform `Distance` grid plus the interpolated `Speed` column. -/
structure AlignedTrace where
  dist : List ℚ
  speed : List ℚ

/-- The fatal errors `align_laps` can raise for non-empty,
channel-complete traces.  `range_error` carries both laps' distance
ranges, which the source embeds in the error message
(`alignment.py` lines 164-169). -/
inductive AlignError where
  | empty_telemetry (which : ℕ) : AlignError
  | range_error (min1 max1 min2 max2 : ℚ) : AlignError
deriving DecidableEq

/-- `pandas` column minimum (`telemetry['Distance'].min()`), of a
non-empty column. -/
def listMin (l : List ℚ) : ℚ := l.foldl min (l.headD 0)

/-- `pandas` column maximum (`telemetry['Distance'].max()`), of a
non-empty column. -/
def listMax (l : List ℚ) : ℚ := l.foldl max (l.headD 0)

/-- `create_distance_array` (`alignment.py` lines 47-63):
`np.arange(min_distance, max_distance, resolution)`, whose length for a
positive step is the ceiling of the range over the step. -/
def createDistanceArray (lo hi res : ℚ) : List ℚ :=
  (List.range (Int.ceil ((hi - lo) / res)).toNat).map fun i : ℕ => lo + (i : ℚ) * res

/-- `df_clean.drop_duplicates(subset=['Distance'])`: keep the first
sample at each distance value. -/
def dedupFst : List (ℚ × ℚ) → List (ℚ × ℚ)
  | [] => []
  | p :: rest => p :: dedupFst (rest.filter fun q => q.1 ≠ p.1)
termination_by l => l.length
decreasing_by
  simp only [List.length_cons]
  exact Nat.lt_succ_of_le (List.length_filter_le _ _)

/-- Insertion step of the distance sort used below. -/
def insertSorted (p : ℚ × ℚ) : List (ℚ × ℚ) → List (ℚ × ℚ)
  | [] => [p]
  | q :: rest => if p.1 < q.1 then p :: q :: rest else q :: insertSorted p rest

/-- `df_clean.sort_values('Distance')` on distance-deduplicated samples
(keys are distinct, so stability is irrelevant). -/
def sortFst (l : List (ℚ × ℚ)) : List (ℚ × ℚ) := l.foldr insertSorted []

/-- Linear interpolation through sorted sample points, clamping
out-of-range queries to the first/last sample value, as
`scipy.interpolate.interp1d(..., kind='linear', bounds_error=False,
fill_value=(values[0], values[-1]))` does. -/
def interpPoints : List (ℚ × ℚ) → ℚ → ℚ
  | [], _ => 0
  | [(_, y)], _ => y
  | (x1, y1) :: (x2, y2) :: rest, q =>
    if q < x1 then y1
    else if q ≤ x2 then y1 + (y2 - y1) * (q - x1) / (x2 - x1)
    else interpPoints ((x2, y2) :: rest) q

/-- One channel of `interpolate_telemetry` (`alignment.py` lines
66-128): deduplicate by distance, sort by distance, then linearly
interpolate against distance with edge clamping. -/
def interpChannel (xs ys : List ℚ) (q : ℚ) : ℚ :=
  interpPoints (sortFst (dedupFst (xs.zip ys))) q

/-- `interpolate_telemetry` applied to a raw trace and a target grid:
the output `Distance` column is the grid itself and every interpolated
column has the grid's length. -/
def interpolateTelemetry (t : RawTrace) (grid : List ℚ) : AlignedTrace :=
  { dist := grid, speed := grid.map (interpChannel t.dist t.speed) }

/-- `align_laps` (`alignment.py` lines 131-189): validate both traces,
compute the overlapping distance interval, raise a range error when it
is empty or degenerate (`min_distance >= max_distance`), and otherwise
resample both traces onto the shared uniform grid. -/
def alignLaps (t1 t2 : RawTrace) (res : ℚ) :
    Except AlignError (AlignedTrace × AlignedTrace) :=
  if t1.dist.isEmpty then .error (.empty_telemetry 1)
  else if t2.dist.isEmpty then .error (.empty_telemetry 2)
  else if min (listMax t1.dist) (listMax t2.dist) ≤
      max (listMin t1.dist) (listMin t2.dist) then
    .error (.range_error (listMin t1.dist) (listMax t1.dist)
      (listMin t2.dist) (listMax t2.dist))
  else
    .ok
      (interpolateTelemetry t1 (createDistanceArray
        (max (listMin t1.dist) (listMin t2.dist))
        (min (listMax t1.dist) (listMax t2.dist)) res),
       interpolateTelemetry t2 (createDistanceArray
        (max (listMin t1.dist) (listMin t2.dist))
        (min (listMax t1.dist) (listMax t2.dist)) res))

/-- Concrete raw trace used as a witness input for the aligner. -/
def rawTraceA : RawTrace := { dist := [0, 10, 20], speed := [100, 120, 140] }

/-- Concrete raw trace overlapping `rawTraceA` on `[5, 20]`. -/
def rawTraceB : RawTrace := { dist := [5, 25], speed := [90, 110] }

/-- Concrete raw trace disjoint from `rawTraceA` (range `[30, 40]`). -/
def rawTraceC : RawTrace := { dist := [30, 40], speed := [80, 90] }

/-- `np.clip(x, lo, hi)` on a scalar. -/
def clip (x lo hi : ℚ) : ℚ := max lo (min x hi)

/-- `smooth_signal` (`physics.py` lines 28-56), parameterized over the
external `scipy.signal.savgol_filter` routine (`savgol`): signals
shorter than the window are returned unmodified, and an even window is
bumped to the next odd value before filtering.  The only property of
the external filter used below is that it preserves length, taken as a
hypothesis where needed. -/
def smoothSignal (savgol : List ℚ → ℕ → ℕ → List ℚ)
    (signal : List ℚ) (window polyorder : ℕ) : List ℚ :=
  if signal.length < window then signal
  else savgol signal (if window % 2 = 0 then window + 1 else window) polyorder

/-- The clamped per-sample time deltas of `compute_acceleration`
(`physics.py` lines 89-92): `np.diff(distance)` over the smoothed speed
(in m/s, shifted by `epsilon = (1/10)/(18/5)`), clipped to `[(1/1000), 10]`.
Division by zero in the rational model returns `0`, which the clip sends
to the same interval that bounds the source's `inf`. -/
def accelTimeDeltas (savgol : List ℚ → ℕ → ℕ → List ℚ)
    (dist speed : List ℚ) (window polyorder : ℕ) : List ℚ :=
  (List.range (dist.length - 1)).map fun i =>
    clip ((dist.getD (i + 1) 0 - dist.getD i 0) /
      ((smoothSignal savgol (speed.map fun v => v / (18/5)) window polyorder).getD i 0 +
        (1/10) / (18/5))) (1/1000) 10

/-- The smoothed-speed differences `np.diff(speed_smooth)` of
`compute_acceleration` (`physics.py` line 95). -/
def accelSpeedDeltas (savgol : List ℚ → ℕ → ℕ → List ℚ)
    (speed : List ℚ) (window polyorder : ℕ) : List ℚ :=
  (List.range ((smoothSignal savgol (speed.map fun v => v / (18/5)) window
      polyorder).length - 1)).map fun i =>
    (smoothSignal savgol (speed.map fun v => v / (18/5)) window polyorder).getD (i + 1) 0 -
      (smoothSignal savgol (speed.map fun v => v / (18/5)) window polyorder).getD i 0

/-- `compute_acceleration` (`physics.py` lines 59-108): smooth the m/s
speed, form clamped time deltas and speed deltas, divide, prepend the
first value to restore the input length, and smooth once more.  On a
trace with fewer than two samples the arrays are empty and the source's
`acceleration[0]` raises `IndexError`, modelled as `none`. -/
def computeAcceleration (savgol : List ℚ → ℕ → ℕ → List ℚ)
    (dist speed : List ℚ) (window polyorder : ℕ) : Option (List ℚ) :=
  match List.zipWith (fun a b => a / b)
      (accelSpeedDeltas savgol speed window polyorder)
      (accelTimeDeltas savgol dist speed window polyorder) with
  | [] => none
  | a :: rest => some (smoothSignal savgol (a :: a :: rest) window polyorder)

/-- Concrete `Distance` column used as a witness input for
`computeAcceleration`. -/
def accelDistSample : List ℚ := [0, 10, 20]

/-- Concrete `Speed` column used as a witness input for
`computeAcceleration`. -/
def accelSpeedSample : List ℚ := [100, 100, 100]

/-- The `Corner` dataclass of `corners.py`. -/
structure Corner where
  corner_id : ℕ
  apex_idx : ℕ
  apex_distance : ℚ
  entry_idx : ℕ
  entry_distance : ℚ
  exit_idx : ℕ
  exit_distance : ℚ
  entry_speed : ℚ
  min_speed : ℚ
  exit_speed : ℚ
  brake_start_distance : ℚ
  brake_distance : ℚ
  peak_deceleration : ℚ
  throttle_reapply_distance : ℚ
  corner_type : String
deriving DecidableEq

/-- The backward entry search of `_analyze_corner` (`corners.py` lines
298-307): walk `i` from `apex_idx - 1` down to
`apex_idx - lookback_max + 1` (with `lookback_max = min(100, apex_idx)`)
and stop at the first brake-threshold crossing
(`brake[i] < thr and brake[i+1] >= thr`), returning `i + 1`; if none is
found the entry index stays at the apex. -/
def entryIdxOf (brake : ℕ → ℚ) (thr : ℚ) (apex : ℕ) : ℕ :=
  match (List.range (min 100 apex - 1)).find?
      (fun k => decide (brake (apex - 1 - k) < thr ∧ thr ≤ brake (apex - k))) with
  | some k => apex - k
  | none => apex

/-- The forward exit search of `_analyze_corner` (`corners.py` lines
309-317): walk `i` from `apex_idx + 1` up to
`apex_idx + lookforward_max - 1` (with
`lookforward_max = min(100, n - apex_idx - 1)`) and stop at the first
sample with `throttle[i] >= 95`; if none is found the exit index stays
at the apex. -/
def exitIdxOf (throttle : ℕ → ℚ) (apex n : ℕ) : ℕ :=
  match (List.range (min 100 (n - apex - 1) - 1)).find?
      (fun k => decide ((95 : ℚ) ≤ throttle (apex + 1 + k))) with
  | some k => apex + 1 + k
  | none => apex

/-- `_analyze_corner` (`corners.py` lines 264-360): entry/exit searches
around a given apex, key-point metrics, peak deceleration over the
braking slice, and the apex-speed type label. -/
def analyzeCorner (corner_id apex_idx : ℕ)
    (dist speed brake throttle accel : ℕ → ℚ) (n : ℕ) (brake_thr : ℚ) : Corner :=
  { corner_id := corner_id
    apex_idx := apex_idx
    apex_distance := dist apex_idx
    entry_idx := entryIdxOf brake brake_thr apex_idx
    entry_distance := dist (entryIdxOf brake brake_thr apex_idx)
    exit_idx := exitIdxOf throttle apex_idx n
    exit_distance := dist (exitIdxOf throttle apex_idx n)
    entry_speed := speed (entryIdxOf brake brake_thr apex_idx)
    min_speed := speed apex_idx
    exit_speed := speed (exitIdxOf throttle apex_idx n)
    brake_start_distance := dist (entryIdxOf brake brake_thr apex_idx)
    brake_distance := dist apex_idx - dist (entryIdxOf brake brake_thr apex_idx)
    peak_deceleration :=
      match (List.range' (entryIdxOf brake brake_thr apex_idx)
          (apex_idx - entryIdxOf brake brake_thr apex_idx)).map accel with
      | [] => 0
      | a :: rest => rest.foldl min a
    throttle_reapply_distance := dist (exitIdxOf throttle apex_idx n) - dist apex_idx
    corner_type :=
      if speed apex_idx < 80 then "slow"
      else if speed apex_idx < 150 then "medium"
      else "fast" }

/-- The `DeltaPhase` literal type of `delta_decomp.py`. -/
inductive DeltaPhase where
  | braking
  | mid_corner
  | traction
  | neutral
deriving DecidableEq

/-- The `CornerDecomposition` dataclass of `delta_decomp.py`. -/
structure CornerDecomposition where
  corner_id : ℕ
  total_delta : ℚ
  braking_contribution : ℚ
  mid_corner_contribution : ℚ
  traction_contribution : ℚ
  dominant_phase : DeltaPhase
  braking_quality : String
  mid_corner_quality : String
  traction_quality : String
deriving DecidableEq

/-- The braking-phase time delta of `decompose_corner_delta`
(`delta_decomp.py` lines 84-97): each driver's braking time is
`brake_distance / (avg(entry, min speed) in m/s + (1/100))`. -/
def brakingDelta (c1 c2 : Corner) : ℚ :=
  c1.brake_distance / ((c1.entry_speed + c1.min_speed) / 2 / (18/5) + (1/100)) -
    c2.brake_distance / ((c2.entry_speed + c2.min_speed) / 2 / (18/5) + (1/100))

/-- The mid-corner time delta (`delta_decomp.py` lines 99-108): a fixed
nominal 20 m at the minimum speed. -/
def midCornerDelta (c1 c2 : Corner) : ℚ :=
  20 / (c1.min_speed / (18/5) + (1/100)) - 20 / (c2.min_speed / (18/5) + (1/100))

/-- The traction-phase time delta (`delta_decomp.py` lines 110-121):
`throttle_reapply_distance / (avg(min, exit speed) in m/s + (1/100))`. -/
def tractionDelta (c1 c2 : Corner) : ℚ :=
  c1.throttle_reapply_distance / ((c1.min_speed + c1.exit_speed) / 2 / (18/5) + (1/100)) -
    c2.throttle_reapply_distance / ((c2.min_speed + c2.exit_speed) / 2 / (18/5) + (1/100))

/-- `max(contributions, key=contributions.get)` over the insertion-order
dictionary `braking, mid_corner, traction` (`delta_decomp.py` lines
127-133): Python's `max` keeps the first key whose value is not
strictly exceeded later, so braking wins all ties and mid-corner wins
ties against traction. -/
def pickDominant (cb cm ct : ℚ) : DeltaPhase :=
  if cm ≤ cb ∧ ct ≤ cb then DeltaPhase.braking
  else if ct ≤ cm then DeltaPhase.mid_corner
  else DeltaPhase.traction

/-- The dominant-phase computation including the neutral override
(`delta_decomp.py` lines 127-137): the phase of maximum absolute
contribution, replaced by `neutral` when the maximum is below (1/100) s. -/
def dominantOf (cb cm ct : ℚ) : DeltaPhase :=
  if max cb (max cm ct) < (1/100) then DeltaPhase.neutral else pickDominant cb cm ct

/-- `_assess_braking` (`delta_decomp.py` lines 157-171). -/
def assessBraking (c1 c2 : Corner) : String :=
  if c1.brake_distance - c2.brake_distance > 5 then "earlier_braking"
  else if c1.brake_distance - c2.brake_distance < -5 then "later_braking"
  else if c1.entry_speed - c2.entry_speed > 3 then "higher_entry"
  else if c1.entry_speed - c2.entry_speed < -3 then "lower_entry"
  else "similar"

/-- `_assess_mid_corner` (`delta_decomp.py` lines 174-183). -/
def assessMidCorner (c1 c2 : Corner) : String :=
  if c1.min_speed - c2.min_speed > 2 then "faster_apex"
  else if c1.min_speed - c2.min_speed < -2 then "slower_apex"
  else "similar"

/-- `_assess_traction` (`delta_decomp.py` lines 186-200). -/
def assessTraction (c1 c2 : Corner) : String :=
  if c1.exit_speed - c2.exit_speed > 3 then "better_exit"
  else if c1.exit_speed - c2.exit_speed < -3 then "worse_exit"
  else if c1.throttle_reapply_distance - c2.throttle_reapply_distance < -5 then
    "earlier_throttle"
  else if c1.throttle_reapply_distance - c2.throttle_reapply_distance > 5 then
    "later_throttle"
  else "similar"

/-- `decompose_corner_delta` (`delta_decomp.py` lines 52-154).  The two
telemetry arguments are accepted but never read, as in the source. -/
def decomposeCornerDelta (c1 c2 : Corner) (t1 t2 : Telemetry) : CornerDecomposition :=
  { corner_id := c1.corner_id
    total_delta := brakingDelta c1 c2 + midCornerDelta c1 c2 + tractionDelta c1 c2
    braking_contribution := brakingDelta c1 c2
    mid_corner_contribution := midCornerDelta c1 c2
    traction_contribution := tractionDelta c1 c2
    dominant_phase :=
      dominantOf |brakingDelta c1 c2| |midCornerDelta c1 c2| |tractionDelta c1 c2|
    braking_quality := assessBraking c1 c2
    mid_corner_quality := assessMidCorner c1 c2
    traction_quality := assessTraction c1 c2 }

/-- Concrete corner used as a witness input for the decomposer. -/
def sampleCorner : Corner :=
  { corner_id := 1
    apex_idx := 10
    apex_distance := 500
    entry_idx := 5
    entry_distance := 450
    exit_idx := 15
    exit_distance := 560
    entry_speed := 200
    min_speed := 100
    exit_speed := 150
    brake_start_distance := 450
    brake_distance := 50
    peak_deceleration := -20
    throttle_reapply_distance := 60
    corner_type := "medium" }

/-- The `BrakingZone` record of `braking_zones.py`. -/
structure BrakingZone where
  zone_id : ℕ
  start_distance : ℚ
  end_distance : ℚ
  entry_speed : ℚ
  min_speed : ℚ
  exit_speed : ℚ
  max_decel : ℚ
  duration : ℚ
deriving DecidableEq

/-- Minimum of a channel over the inclusive index slice `[a, b]`
(`min(speed[zone_start_idx : zone_end_idx + 1])`). -/
def sliceMin (f : ℕ → ℚ) (a b : ℕ) : ℚ :=
  ((List.range' a (b + 1 - a)).map f).foldl min (f a)

/-- Sum of a channel over the inclusive index slice `[a, b]`, used for
`np.mean(zone_speeds)`. -/
def sliceSum (f : ℕ → ℚ) (a b : ℕ) : ℚ :=
  ((List.range' a (b + 1 - a)).map f).sum

/-- The `BrakingZone` built when a candidate zone `[s, e]` is accepted
(`braking_zones.py` lines 110-135): `max_decel` is the absolute minimum
of the optional `LongAccel` column (0 when absent), and `duration` is
the zone length over the mean speed when that mean is positive. -/
def mkBrakingZone (dist speed : ℕ → ℚ) (accel : Option (ℕ → ℚ))
    (zone_id s e : ℕ) : BrakingZone :=
  { zone_id := zone_id
    start_distance := dist s
    end_distance := dist e
    entry_speed := speed s
    min_speed := sliceMin speed s e
    exit_speed := speed e
    max_decel :=
      match accel with
      | some a => |sliceMin a s e|
      | none => 0
    duration :=
      if 0 < sliceSum speed s e / ((e + 1 - s : ℕ) : ℚ) then
        (dist e - dist s) / (sliceSum speed s e / ((e + 1 - s : ℕ) : ℚ) / (18/5))
      else 0 }

/-- The mutable loop state of `detect_braking_zones`
(`braking_zones.py` lines 84-87). -/
structure BrakeScanState where
  in_zone : Bool
  zone_start_idx : ℕ
  zone_id : ℕ
  zones : List BrakingZone

/-- One iteration of the scan loop of `detect_braking_zones`
(`braking_zones.py` lines 93-139): a zone opens when brake input
crosses above the threshold, and closes at the first below-threshold
sample, where the candidate `[zone_start_idx, i-1]` is kept only when
it passes both the minimum-length and the minimum-speed-drop checks;
the id counter advances only on acceptance. -/
def brakeScanStep (dist speed brake : ℕ → ℚ) (accel : Option (ℕ → ℚ))
    (thr minLen minDrop : ℚ) (s : BrakeScanState) (i : ℕ) : BrakeScanState :=
  if thr < brake i ∧ s.in_zone = false then
    { s with in_zone := true, zone_start_idx := i }
  else if ¬thr < brake i ∧ s.in_zone = true then
    if minLen ≤ dist (i - 1) - dist s.zone_start_idx ∧
        minDrop ≤ speed s.zone_start_idx - sliceMin speed s.zone_start_idx (i - 1) then
      { in_zone := false
        zone_start_idx := s.zone_start_idx
        zone_id := s.zone_id + 1
        zones := s.zones ++
          [mkBrakingZone dist speed accel s.zone_id s.zone_start_idx (i - 1)] }
    else { s with in_zone := false }
  else s

/-- `detect_braking_zones` (`braking_zones.py` lines 55-142) on a trace
of `m` samples whose channels are given as functions of the row index:
scan rows `1` to `m - 1` with `brakeScanStep` and return the collected
zones.  (When the `Brake` column is missing the source returns `[]`
before the scan; the claims below concern traces that carry it.) -/
def detectBrakingZones (dist speed brake : ℕ → ℚ) (accel : Option (ℕ → ℚ))
    (thr minLen minDrop : ℚ) (m : ℕ) : List BrakingZone :=
  ((List.range' 1 (m - 1)).foldl
    (brakeScanStep dist speed brake accel thr minLen minDrop)
    { in_zone := false, zone_start_idx := 0, zone_id := 1, zones := [] }).zones

/-- Concrete `Brake` column with one zone closing before the trace end. -/
def brakeColClosed : ℕ → ℚ := fun i => if 1 ≤ i ∧ i ≤ 4 then 50 else 0

/-- Concrete `Speed` column dropping from 100 to 50 inside the zone. -/
def speedColDrop : ℕ → ℚ := fun i => if i ≤ 1 then 100 else if i ≤ 4 then 50 else 60

/-- Concrete `Distance` column: 10 m per sample (tabulated so that
concrete scans evaluate by `decide`). -/
def distCol10 : ℕ → ℚ := fun i => ([0, 10, 20, 30, 40, 50] : List ℚ).getD i 0

/-- Concrete `Brake` column that rises above the threshold at sample 1
and never drops back below it. -/
def brakeColOpen : ℕ → ℚ := fun i => if i = 0 then 0 else 60

section DeltaTimeLemmas

/-- Each summand of the cumulative delta is nonpositive when driver 1 is
at least as fast as driver 2 at that sample (speeds nonnegative, distance
step nonnegative). -/
theorem timeDeltaOf_sub_nonpos (dist s1 s2 : ℕ → ℚ) (i : ℕ)
    (hdx : i = 0 ∨ dist (i - 1) ≤ dist i)
    (hnn : 0 ≤ s2 i) (hge : s2 i ≤ s1 i) :
    timeDeltaOf dist s1 i - timeDeltaOf dist s2 i ≤ 0 := by
  unfold timeDeltaOf
  rcases eq_or_ne i 0 with h0 | h0
  · simp [h0]
  · have hdx' : 0 ≤ dist i - dist (i - 1) := by
      rcases hdx with h | h
      · exact absurd h h0
      · linarith
    rw [if_neg h0, sub_nonpos]
    have hpos2 : (0 : ℚ) < (s2 i + (1/10)) / (18/5) := by positivity
    have hle : (s2 i + (1/10)) / (18/5) ≤ (s1 i + (1/10)) / (18/5) := by
      apply div_le_div_of_nonneg_right _ (by norm_num)
      linarith
    exact div_le_div_of_nonneg_left hdx' hpos2 hle

end DeltaTimeLemmas

/-- C1: for aligned non-empty traces (equal length, nonnegative speeds,
driver 1's distance column non-decreasing), if driver 1's speed is at
least driver 2's at every sample then every cumulative-delta value (in
particular the final one) is `≤ 0`; and if the speed traces are
identical the cumulative delta is exactly `0` at every sample. -/
theorem compute_delta_time_sign (t1 t2 : Telemetry)
    (hn : t1.n = t2.n)
    (hne : 1 ≤ t1.n)
    (hmono : ∀ i, i + 1 < t1.n → t1.dist i ≤ t1.dist (i + 1))
    (hnn : ∀ i, i < t1.n → 0 ≤ t2.speed i)
    (hge : ∀ i, i < t1.n → t2.speed i ≤ t1.speed i) :
    (∃ l, computeDeltaTime t1 t2 = .ok l ∧ ∀ x ∈ l, x ≤ 0) ∧
    ((∀ i, i < t1.n → t1.speed i = t2.speed i) →
      ∃ l, computeDeltaTime t1 t2 = .ok l ∧ ∀ x ∈ l, x = 0) := by
  have hsome : computeDeltaTime t1 t2 =
      .ok ((List.range t1.n).map fun k =>
        ∑ i ∈ Finset.range (k + 1),
          (timeDeltaOf t1.dist t1.speed i - timeDeltaOf t1.dist t2.speed i)) := by
    unfold computeDeltaTime
    rw [if_neg (by omega), if_neg (by omega)]
  constructor
  · refine ⟨_, hsome, ?_⟩
    intro x hx
    rcases List.mem_map.mp hx with ⟨k, hk, rfl⟩
    have hkn : k < t1.n := List.mem_range.mp hk
    apply Finset.sum_nonpos
    intro i hi
    have hin : i < t1.n := lt_of_le_of_lt (Nat.lt_succ_iff.mp (Finset.mem_range.mp hi)) hkn
    apply timeDeltaOf_sub_nonpos
    · rcases Nat.eq_zero_or_pos i with h | h
      · exact Or.inl h
      · right
        have := hmono (i - 1) (by omega)
        have hi1 : i - 1 + 1 = i := by omega
        rwa [hi1] at this
    · exact hnn i hin
    · exact hge i hin
  · intro heq
    refine ⟨_, hsome, ?_⟩
    intro x hx
    rcases List.mem_map.mp hx with ⟨k, hk, rfl⟩
    have hkn : k < t1.n := List.mem_range.mp hk
    apply Finset.sum_eq_zero
    intro i hi
    have hin : i < t1.n := lt_of_le_of_lt (Nat.lt_succ_iff.mp (Finset.mem_range.mp hi)) hkn
    simp only [timeDeltaOf]
    rw [heq i hin, sub_self]

/-- Witness for C1: the theorem applied at concrete two-sample traces
where driver 1 is faster everywhere. -/
theorem compute_delta_time_sign_witness :
    (∃ l, computeDeltaTime deltaTraceA deltaTraceB = .ok l ∧ ∀ x ∈ l, x ≤ 0) ∧
    (∃ l, computeDeltaTime deltaTraceA deltaTraceA = .ok l ∧ ∀ x ∈ l, x = 0) := by
  constructor
  · exact (compute_delta_time_sign deltaTraceA deltaTraceB rfl (by decide)
      (fun i _ => by simp only [deltaTraceA]; push_cast; linarith)
      (fun i _ => by norm_num [deltaTraceB])
      (fun i _ => by norm_num [deltaTraceA, deltaTraceB])).1
  · exact (compute_delta_time_sign deltaTraceA deltaTraceA rfl (by decide)
      (fun i _ => by simp only [deltaTraceA]; push_cast; linarith)
      (fun i _ => by norm_num [deltaTraceA])
      (fun i _ => by norm_num [deltaTraceA])).2 (fun _ _ => rfl)

/-- Counterexample for C4: `compute_delta_time` succeeds on two
equal-length non-empty traces whose distance grids differ, so it does
not fail on all unaligned inputs. -/
theorem compute_delta_time_unaligned_grid_succeeds :
    (∃ l, computeDeltaTime deltaTraceC deltaTraceD = .ok l) ∧
    deltaTraceC.n = deltaTraceD.n ∧
    deltaTraceC.dist 0 ≠ deltaTraceD.dist 0 := by
  refine ⟨?_, rfl, by norm_num [deltaTraceC, deltaTraceD]⟩
  unfold computeDeltaTime
  rw [if_neg (by decide), if_neg (by decide)]
  exact ⟨_, rfl⟩

/-- C4 (amended): `compute_delta_time` raises exactly when the two
traces have different lengths (the explicit `ValueError`) or when the
equal-length traces are empty (`IndexError` at `distances[0]`); the
distance grids themselves are never compared (driver 1's grid is used
for both drivers), so equal-length non-empty traces on different grids
succeed. -/
theorem compute_delta_time_result_spec (t1 t2 : Telemetry) :
    (computeDeltaTime t1 t2 =
        .error (.length_mismatch t1.n t2.n) ↔ t1.n ≠ t2.n) ∧
    (computeDeltaTime t1 t2 = .error .empty_distance ↔
      (t1.n = t2.n ∧ t1.n = 0)) ∧
    ((∃ l, computeDeltaTime t1 t2 = .ok l) ↔ (t1.n = t2.n ∧ 1 ≤ t1.n)) := by
  unfold computeDeltaTime
  split_ifs with h1 h2
  · refine ⟨iff_of_true rfl h1, ?_, ?_⟩
    · exact iff_of_false (by simp) (by rintro ⟨h, _⟩; exact h1 h)
    · exact iff_of_false (by simp) (by rintro ⟨h, _⟩; exact h1 h)
  · refine ⟨?_, iff_of_true rfl ⟨not_ne_iff.mp h1, h2⟩, ?_⟩
    · exact iff_of_false (by simp) (fun h => h (not_ne_iff.mp h1))
    · exact iff_of_false (by simp) (by rintro ⟨_, hle⟩; omega)
  · refine ⟨?_, ?_, iff_of_true ⟨_, rfl⟩ ⟨not_ne_iff.mp h1, by omega⟩⟩
    · exact iff_of_false (by simp) (fun h => h (not_ne_iff.mp h1))
    · exact iff_of_false (by simp) (by rintro ⟨_, h0⟩; exact h2 h0)

/-- Witness for C4's amended theorem: a length mismatch raises the
length error, an equal-length empty pair raises the index error, and an
equal-length non-empty pair succeeds. -/
theorem compute_delta_time_result_spec_witness :
    computeDeltaTime deltaTraceA deltaTraceC =
      .error (.length_mismatch deltaTraceA.n deltaTraceC.n) ∧
    computeDeltaTime deltaTraceE deltaTraceE = .error .empty_distance ∧
    (∃ l, computeDeltaTime deltaTraceC deltaTraceD = .ok l) :=
  ⟨(compute_delta_time_result_spec deltaTraceA deltaTraceC).1.mpr (by decide),
   (compute_delta_time_result_spec deltaTraceE deltaTraceE).2.1.mpr ⟨rfl, rfl⟩,
   (compute_delta_time_result_spec deltaTraceC deltaTraceD).2.2.mpr
     ⟨rfl, by decide⟩⟩

section AlignLemmas

/-- Length of the uniform grid: the ceiling of the range over the
resolution. -/
theorem createDistanceArray_length (lo hi res : ℚ) :
    (createDistanceArray lo hi res).length = (Int.ceil ((hi - lo) / res)).toNat := by
  unfold createDistanceArray
  rw [List.length_map, List.length_range]

/-- Entry `i` of the uniform grid is `lo + i * res`. -/
theorem createDistanceArray_get (lo hi res : ℚ) (i : ℕ)
    (h : i < (createDistanceArray lo hi res).length) :
    (createDistanceArray lo hi res).get ⟨i, h⟩ = lo + i * res := by
  have h' : i < (Int.ceil ((hi - lo) / res)).toNat := by
    rwa [createDistanceArray_length] at h
  simp only [createDistanceArray, List.get_eq_getElem, List.getElem_map,
    List.getElem_range]

/-- A non-empty uniform grid starts at its lower endpoint. -/
theorem createDistanceArray_head (lo hi res : ℚ)
    (h : 0 < (createDistanceArray lo hi res).length) :
    (createDistanceArray lo hi res).head? = some lo := by
  rw [createDistanceArray_length] at h
  unfold createDistanceArray
  obtain ⟨m, hm⟩ : ∃ m, (Int.ceil ((hi - lo) / res)).toNat = m + 1 :=
    ⟨(Int.ceil ((hi - lo) / res)).toNat - 1, by omega⟩
  rw [hm, List.range_succ_eq_map]
  simp

end AlignLemmas

/-- C5: for non-empty (channel-complete) traces, `align_laps` raises the
range error exactly when the overlap interval is empty or degenerate
(`min(max1, max2) <= max(min1, min2)`, so exactly touching ranges also
raise), and the error value carries both laps' distance ranges. -/
theorem align_laps_range_error_iff (t1 t2 : RawTrace) (res : ℚ)
    (h1 : t1.dist ≠ []) (h2 : t2.dist ≠ []) :
    alignLaps t1 t2 res =
        .error (.range_error (listMin t1.dist) (listMax t1.dist)
          (listMin t2.dist) (listMax t2.dist)) ↔
      min (listMax t1.dist) (listMax t2.dist) ≤
        max (listMin t1.dist) (listMin t2.dist) := by
  unfold alignLaps
  rw [if_neg (by simpa using h1), if_neg (by simpa using h2)]
  split_ifs with h
  · exact iff_of_true rfl h
  · exact iff_of_false (by simp) h

/-- Witness for C5: two concrete disjoint traces raise the range error
carrying both ranges. -/
theorem align_laps_range_error_iff_witness :
    alignLaps rawTraceA rawTraceC 5 =
      .error (.range_error (listMin rawTraceA.dist) (listMax rawTraceA.dist)
        (listMin rawTraceC.dist) (listMax rawTraceC.dist)) :=
  (align_laps_range_error_iff rawTraceA rawTraceC 5 (by decide) (by decide)).mpr
    (by decide)

/-- C6: for non-empty traces with a non-degenerate overlap and a
positive resolution, `align_laps` succeeds with two outputs of equal
length whose distance columns are identical, start at the overlap
minimum, and increase strictly in steps of the resolution. -/
theorem align_laps_grid_spec (t1 t2 : RawTrace) (res : ℚ)
    (h1 : t1.dist ≠ []) (h2 : t2.dist ≠ [])
    (hres : 0 < res)
    (hov : max (listMin t1.dist) (listMin t2.dist) <
      min (listMax t1.dist) (listMax t2.dist)) :
    ∃ a1 a2, alignLaps t1 t2 res = .ok (a1, a2) ∧
      a1.dist = a2.dist ∧
      a1.dist.length = a2.dist.length ∧
      a1.speed.length = a1.dist.length ∧
      a2.speed.length = a2.dist.length ∧
      a1.dist.head? = some (max (listMin t1.dist) (listMin t2.dist)) ∧
      (∀ (i : ℕ) (h : i + 1 < a1.dist.length),
        a1.dist.get ⟨i, Nat.lt_of_succ_lt h⟩ + res = a1.dist.get ⟨i + 1, h⟩) ∧
      (∀ (i j : ℕ) (hi : i < a1.dist.length) (hj : j < a1.dist.length),
        i < j → a1.dist.get ⟨i, hi⟩ < a1.dist.get ⟨j, hj⟩) := by
  unfold alignLaps
  rw [if_neg (by simpa using h1), if_neg (by simpa using h2),
    if_neg (not_le.mpr hov)]
  refine ⟨_, _, rfl, rfl, rfl, ?_, ?_, ?_, ?_, ?_⟩
  · simp [interpolateTelemetry]
  · simp [interpolateTelemetry]
  · have hpos : 0 < (createDistanceArray (max (listMin t1.dist) (listMin t2.dist))
        (min (listMax t1.dist) (listMax t2.dist)) res).length := by
      rw [createDistanceArray_length]
      have hx : 0 < (min (listMax t1.dist) (listMax t2.dist) -
          max (listMin t1.dist) (listMin t2.dist)) / res :=
        div_pos (by linarith) hres
      have := Int.ceil_pos.mpr hx
      omega
    simpa [interpolateTelemetry] using
      createDistanceArray_head (max (listMin t1.dist) (listMin t2.dist))
        (min (listMax t1.dist) (listMax t2.dist)) res hpos
  · intro i h
    simp only [interpolateTelemetry] at h ⊢
    rw [createDistanceArray_get, createDistanceArray_get]
    push_cast
    ring
  · intro i j hi hj hij
    simp only [interpolateTelemetry] at hi hj ⊢
    rw [createDistanceArray_get, createDistanceArray_get]
    have hij' : (i : ℚ) < (j : ℚ) := by exact_mod_cast hij
    have := mul_lt_mul_of_pos_right hij' hres
    linarith

/-- Witness for C6: the theorem applied to two concrete overlapping
traces. -/
theorem align_laps_grid_spec_witness :
    ∃ a1 a2, alignLaps rawTraceA rawTraceB 5 = .ok (a1, a2) ∧
      a1.dist = a2.dist ∧
      a1.dist.length = a2.dist.length ∧
      a1.speed.length = a1.dist.length ∧
      a2.speed.length = a2.dist.length ∧
      a1.dist.head? = some (max (listMin rawTraceA.dist) (listMin rawTraceB.dist)) ∧
      (∀ (i : ℕ) (h : i + 1 < a1.dist.length),
        a1.dist.get ⟨i, Nat.lt_of_succ_lt h⟩ + 5 = a1.dist.get ⟨i + 1, h⟩) ∧
      (∀ (i j : ℕ) (hi : i < a1.dist.length) (hj : j < a1.dist.length),
        i < j → a1.dist.get ⟨i, hi⟩ < a1.dist.get ⟨j, hj⟩) :=
  align_laps_grid_spec rawTraceA rawTraceB 5 (by decide) (by decide)
    (by norm_num) (by decide)

section PhysicsLemmas

/-- `smooth_signal` preserves length whenever the external filter does. -/
theorem smoothSignal_length (savgol : List ℚ → ℕ → ℕ → List ℚ)
    (hsav : ∀ s w p, (savgol s w p).length = s.length)
    (signal : List ℚ) (window polyorder : ℕ) :
    (smoothSignal savgol signal window polyorder).length = signal.length := by
  unfold smoothSignal
  split_ifs <;> simp [hsav]

end PhysicsLemmas

/-- Counterexample for C9: on a one-sample trace carrying both required
channels, `compute_acceleration` indexes into an empty array and raises
(`none` here), so no acceleration array of the input length is
returned. -/
theorem compute_acceleration_single_sample_none :
    computeAcceleration (fun s _ _ => s) [(0 : ℚ)] [(100 : ℚ)] 11 3 = none := rfl

/-- C9 (amended): for every input trace with at least two samples, the
acceleration array exists and has the input length (the first computed
delta is prepended), and every intermediate per-sample time delta is
clamped to `[(1/1000), 10]` seconds.  The external Savitzky-Golay filter is
assumed length-preserving. -/
theorem compute_acceleration_length_clamp
    (savgol : List ℚ → ℕ → ℕ → List ℚ) (dist speed : List ℚ)
    (window polyorder : ℕ)
    (hsav : ∀ s w p, (savgol s w p).length = s.length)
    (hlen : speed.length = dist.length)
    (h2 : 2 ≤ dist.length) :
    (∃ a, computeAcceleration savgol dist speed window polyorder = some a ∧
      a.length = dist.length) ∧
    (∀ x ∈ accelTimeDeltas savgol dist speed window polyorder,
      (1/1000) ≤ x ∧ x ≤ 10) := by
  have hss : (smoothSignal savgol (speed.map fun v => v / (18/5))
      window polyorder).length = dist.length := by
    rw [smoothSignal_length savgol hsav, List.length_map, hlen]
  constructor
  · have htd : (accelTimeDeltas savgol dist speed window polyorder).length =
        dist.length - 1 := by
      unfold accelTimeDeltas
      rw [List.length_map, List.length_range]
    have hsd : (accelSpeedDeltas savgol speed window polyorder).length =
        dist.length - 1 := by
      unfold accelSpeedDeltas
      rw [List.length_map, List.length_range, hss]
    have hzwlen : (List.zipWith (fun a b : ℚ => a / b)
        (accelSpeedDeltas savgol speed window polyorder)
        (accelTimeDeltas savgol dist speed window polyorder)).length =
        dist.length - 1 := by
      rw [List.length_zipWith, hsd, htd, min_self]
    unfold computeAcceleration
    rcases hz : List.zipWith (fun a b : ℚ => a / b)
        (accelSpeedDeltas savgol speed window polyorder)
        (accelTimeDeltas savgol dist speed window polyorder) with _ | ⟨a, rest⟩
    · rw [hz] at hzwlen
      simp at hzwlen
      omega
    · rw [hz] at hzwlen
      simp only [List.length_cons] at hzwlen
      refine ⟨_, rfl, ?_⟩
      rw [smoothSignal_length savgol hsav]
      simp only [List.length_cons]
      omega
  · intro x hx
    unfold accelTimeDeltas at hx
    rcases List.mem_map.mp hx with ⟨i, _, rfl⟩
    constructor
    · exact le_max_left _ _
    · exact max_le (by norm_num) (min_le_right _ _)

/-- Witness for C9's amended theorem at a concrete three-sample trace. -/
theorem compute_acceleration_length_clamp_witness :
    (∃ a, computeAcceleration (fun s _ _ => s) accelDistSample accelSpeedSample
        11 3 = some a ∧ a.length = accelDistSample.length) ∧
    (∀ x ∈ accelTimeDeltas (fun s _ _ => s) accelDistSample accelSpeedSample 11 3,
      (1/1000) ≤ x ∧ x ≤ 10) :=
  compute_acceleration_length_clamp (fun s _ _ => s) accelDistSample
    accelSpeedSample 11 3 (fun _ _ _ => rfl) rfl (by decide)

section CornerLemmas

/-- The entry search never moves past the apex. -/
theorem entryIdxOf_le (brake : ℕ → ℚ) (thr : ℚ) (apex : ℕ) :
    entryIdxOf brake thr apex ≤ apex := by
  unfold entryIdxOf
  rcases h : (List.range (min 100 apex - 1)).find?
      (fun k => decide (brake (apex - 1 - k) < thr ∧ thr ≤ brake (apex - k))) with
    _ | k
  · exact le_refl _
  · exact Nat.sub_le _ _

/-- The exit search never moves before the apex. -/
theorem le_exitIdxOf (throttle : ℕ → ℚ) (apex n : ℕ) :
    apex ≤ exitIdxOf throttle apex n := by
  unfold exitIdxOf
  rcases h : (List.range (min 100 (n - apex - 1) - 1)).find?
      (fun k => decide ((95 : ℚ) ≤ throttle (apex + 1 + k))) with _ | k
  · exact le_refl _
  · show apex ≤ apex + 1 + k
    omega

end CornerLemmas

/-- C7: on a monotonically non-decreasing distance column, every corner
produced by `_analyze_corner` satisfies
`entry_distance <= apex_distance <= exit_distance`; and when no
brake-threshold crossing exists in the bounded backward window, the
entry point collapses to the apex itself (a zero-length braking phase,
not an error). -/
theorem analyze_corner_ordering (corner_id apex_idx : ℕ)
    (dist speed brake throttle accel : ℕ → ℚ) (n : ℕ) (thr : ℚ)
    (hmono : Monotone dist) :
    ((analyzeCorner corner_id apex_idx dist speed brake throttle accel n
        thr).entry_distance ≤
      (analyzeCorner corner_id apex_idx dist speed brake throttle accel n
        thr).apex_distance ∧
     (analyzeCorner corner_id apex_idx dist speed brake throttle accel n
        thr).apex_distance ≤
      (analyzeCorner corner_id apex_idx dist speed brake throttle accel n
        thr).exit_distance) ∧
    ((∀ k, k < min 100 apex_idx - 1 →
        ¬(brake (apex_idx - 1 - k) < thr ∧ thr ≤ brake (apex_idx - k))) →
      (analyzeCorner corner_id apex_idx dist speed brake throttle accel n
        thr).entry_idx = apex_idx ∧
      (analyzeCorner corner_id apex_idx dist speed brake throttle accel n
        thr).entry_distance =
        (analyzeCorner corner_id apex_idx dist speed brake throttle accel n
          thr).apex_distance ∧
      (analyzeCorner corner_id apex_idx dist speed brake throttle accel n
        thr).brake_distance = 0) := by
  constructor
  · constructor
    · exact hmono (entryIdxOf_le brake thr apex_idx)
    · exact hmono (le_exitIdxOf throttle apex_idx n)
  · intro hnone
    have hfind : (List.range (min 100 apex_idx - 1)).find?
        (fun k => decide (brake (apex_idx - 1 - k) < thr ∧
          thr ≤ brake (apex_idx - k))) = none := by
      rw [List.find?_eq_none]
      intro k hk
      simp only [decide_eq_true_eq]
      exact hnone k (List.mem_range.mp hk)
    have hidx : entryIdxOf brake thr apex_idx = apex_idx := by
      unfold entryIdxOf
      rw [hfind]
    refine ⟨hidx, ?_, ?_⟩
    · show dist (entryIdxOf brake thr apex_idx) = dist apex_idx
      rw [hidx]
    · show dist apex_idx - dist (entryIdxOf brake thr apex_idx) = 0
      rw [hidx, sub_self]

/-- Witness for C7: a concrete corner at apex index 2 of a 5-sample
trace with a monotone distance column and no brake application. -/
theorem analyze_corner_ordering_witness :
    ((analyzeCorner 1 2 (fun i => (i : ℚ)) (fun _ => 100) (fun _ => 0)
        (fun _ => 0) (fun _ => 0) 5 10).entry_distance ≤
      (analyzeCorner 1 2 (fun i => (i : ℚ)) (fun _ => 100) (fun _ => 0)
        (fun _ => 0) (fun _ => 0) 5 10).apex_distance ∧
     (analyzeCorner 1 2 (fun i => (i : ℚ)) (fun _ => 100) (fun _ => 0)
        (fun _ => 0) (fun _ => 0) 5 10).apex_distance ≤
      (analyzeCorner 1 2 (fun i => (i : ℚ)) (fun _ => 100) (fun _ => 0)
        (fun _ => 0) (fun _ => 0) 5 10).exit_distance) ∧
    (analyzeCorner 1 2 (fun i => (i : ℚ)) (fun _ => 100) (fun _ => 0)
      (fun _ => 0) (fun _ => 0) 5 10).entry_idx = 2 := by
  have h := analyze_corner_ordering 1 2 (fun i => (i : ℚ)) (fun _ => 100)
    (fun _ => 0) (fun _ => 0) (fun _ => 0) 5 10
    (fun a b hab => by
      show (a : ℚ) ≤ (b : ℚ)
      exact_mod_cast hab)
  exact ⟨h.1, (h.2 (fun k _ => by norm_num)).1⟩

section DecompositionLemmas

/-- Characterization of the dominant-phase computation: neutral exactly
when every absolute contribution is below (1/100) s, and otherwise the
first phase (in the order braking, mid-corner, traction) attaining the
maximum absolute contribution. -/
theorem dominantOf_spec (cb cm ct : ℚ) :
    (dominantOf cb cm ct = DeltaPhase.neutral ↔
      (cb < (1/100) ∧ cm < (1/100) ∧ ct < (1/100))) ∧
    (dominantOf cb cm ct = DeltaPhase.braking ↔
      ((1/100) ≤ max cb (max cm ct) ∧ cb = max cb (max cm ct))) ∧
    (dominantOf cb cm ct = DeltaPhase.mid_corner ↔
      ((1/100) ≤ max cb (max cm ct) ∧ cb ≠ max cb (max cm ct) ∧
        cm = max cb (max cm ct))) ∧
    (dominantOf cb cm ct = DeltaPhase.traction ↔
      ((1/100) ≤ max cb (max cm ct) ∧ cb ≠ max cb (max cm ct) ∧
        cm ≠ max cb (max cm ct))) := by
  have hble : cb ≤ max cb (max cm ct) := le_max_left _ _
  have hmle : cm ≤ max cb (max cm ct) :=
    le_trans (le_max_left _ _) (le_max_right _ _)
  have htle : ct ≤ max cb (max cm ct) :=
    le_trans (le_max_right _ _) (le_max_right _ _)
  unfold dominantOf
  rcases lt_or_le (max cb (max cm ct)) (1/100) with hM | hM
  · rw [if_pos hM]
    refine ⟨iff_of_true rfl ⟨lt_of_le_of_lt hble hM, lt_of_le_of_lt hmle hM,
      lt_of_le_of_lt htle hM⟩, ?_, ?_, ?_⟩
    · exact iff_of_false (by simp) (by rintro ⟨h, _⟩; linarith)
    · exact iff_of_false (by simp) (by rintro ⟨h, _⟩; linarith)
    · exact iff_of_false (by simp) (by rintro ⟨h, _⟩; linarith)
  · rw [if_neg (not_lt.mpr hM)]
    unfold pickDominant
    split_ifs with h1 h2
    · have hMcb : max cb (max cm ct) = cb := max_eq_left (max_le h1.1 h1.2)
      refine ⟨?_, iff_of_true rfl ⟨hM, hMcb.symm⟩, ?_, ?_⟩
      · refine iff_of_false (by simp) ?_
        rintro ⟨hb, _, _⟩
        rw [hMcb] at hM
        linarith
      · exact iff_of_false (by simp) (by rintro ⟨_, hne, _⟩; exact hne hMcb.symm)
      · exact iff_of_false (by simp) (by rintro ⟨_, hne, _⟩; exact hne hMcb.symm)
    · have hcbcm : cb < cm := by
        by_contra hc
        push_neg at hc
        push_neg at h1
        have := h1 hc
        linarith
      have hMeq : max cb (max cm ct) = cm := by
        rw [max_eq_left h2, max_eq_right hcbcm.le]
      refine ⟨?_, ?_, iff_of_true rfl ⟨hM, ?_, hMeq.symm⟩, ?_⟩
      · refine iff_of_false (by simp) ?_
        rintro ⟨_, hm', _⟩
        rw [hMeq] at hM
        linarith
      · refine iff_of_false (by simp) ?_
        rintro ⟨_, hcb⟩
        rw [hMeq] at hcb
        linarith
      · rw [hMeq]
        exact ne_of_lt hcbcm
      · exact iff_of_false (by simp) (by rintro ⟨_, _, hne⟩; exact hne hMeq.symm)
    · have hcmct : cm < ct := not_le.mp h2
      have hcbct : cb < ct := by
        push_neg at h1
        rcases le_or_lt cm cb with hc | hc
        · exact h1 hc
        · linarith
      have hMeq : max cb (max cm ct) = ct := by
        rw [max_eq_right hcmct.le, max_eq_right hcbct.le]
      refine ⟨?_, ?_, ?_, iff_of_true rfl ⟨hM, ?_, ?_⟩⟩
      · refine iff_of_false (by simp) ?_
        rintro ⟨_, _, ht⟩
        rw [hMeq] at hM
        linarith
      · refine iff_of_false (by simp) ?_
        rintro ⟨_, hcb⟩
        rw [hMeq] at hcb
        linarith
      · refine iff_of_false (by simp) ?_
        rintro ⟨_, _, hcm⟩
        rw [hMeq] at hcm
        linarith
      · rw [hMeq]
        exact ne_of_lt hcbct
      · rw [hMeq]
        exact ne_of_lt hcmct

end DecompositionLemmas

/-- C2: the `total_delta` of every decomposition is exactly the sum of
its braking, mid-corner and traction contributions — a definitional
identity of `decompose_corner_delta`. -/
theorem decompose_total_delta_eq_sum (c1 c2 : Corner) (t1 t2 : Telemetry) :
    (decomposeCornerDelta c1 c2 t1 t2).total_delta =
      (decomposeCornerDelta c1 c2 t1 t2).braking_contribution +
        (decomposeCornerDelta c1 c2 t1 t2).mid_corner_contribution +
        (decomposeCornerDelta c1 c2 t1 t2).traction_contribution := rfl

/-- C3: the dominant phase is `neutral` exactly when all three absolute
contributions are below (1/100) s; otherwise it is the phase of maximum
absolute contribution, ties broken in the order braking, mid-corner,
traction (braking beats both, mid-corner beats traction). -/
theorem decompose_dominant_phase_spec (c1 c2 : Corner) (t1 t2 : Telemetry) :
    ((decomposeCornerDelta c1 c2 t1 t2).dominant_phase = DeltaPhase.neutral ↔
      (|(decomposeCornerDelta c1 c2 t1 t2).braking_contribution| < (1/100) ∧
       |(decomposeCornerDelta c1 c2 t1 t2).mid_corner_contribution| < (1/100) ∧
       |(decomposeCornerDelta c1 c2 t1 t2).traction_contribution| < (1/100))) ∧
    ((decomposeCornerDelta c1 c2 t1 t2).dominant_phase = DeltaPhase.braking ↔
      ((1/100) ≤ max |(decomposeCornerDelta c1 c2 t1 t2).braking_contribution|
          (max |(decomposeCornerDelta c1 c2 t1 t2).mid_corner_contribution|
            |(decomposeCornerDelta c1 c2 t1 t2).traction_contribution|) ∧
       |(decomposeCornerDelta c1 c2 t1 t2).braking_contribution| =
        max |(decomposeCornerDelta c1 c2 t1 t2).braking_contribution|
          (max |(decomposeCornerDelta c1 c2 t1 t2).mid_corner_contribution|
            |(decomposeCornerDelta c1 c2 t1 t2).traction_contribution|))) ∧
    ((decomposeCornerDelta c1 c2 t1 t2).dominant_phase = DeltaPhase.mid_corner ↔
      ((1/100) ≤ max |(decomposeCornerDelta c1 c2 t1 t2).braking_contribution|
          (max |(decomposeCornerDelta c1 c2 t1 t2).mid_corner_contribution|
            |(decomposeCornerDelta c1 c2 t1 t2).traction_contribution|) ∧
       |(decomposeCornerDelta c1 c2 t1 t2).braking_contribution| ≠
        max |(decomposeCornerDelta c1 c2 t1 t2).braking_contribution|
          (max |(decomposeCornerDelta c1 c2 t1 t2).mid_corner_contribution|
            |(decomposeCornerDelta c1 c2 t1 t2).traction_contribution|) ∧
       |(decomposeCornerDelta c1 c2 t1 t2).mid_corner_contribution| =
        max |(decomposeCornerDelta c1 c2 t1 t2).braking_contribution|
          (max |(decomposeCornerDelta c1 c2 t1 t2).mid_corner_contribution|
            |(decomposeCornerDelta c1 c2 t1 t2).traction_contribution|))) ∧
    ((decomposeCornerDelta c1 c2 t1 t2).dominant_phase = DeltaPhase.traction ↔
      ((1/100) ≤ max |(decomposeCornerDelta c1 c2 t1 t2).braking_contribution|
          (max |(decomposeCornerDelta c1 c2 t1 t2).mid_corner_contribution|
            |(decomposeCornerDelta c1 c2 t1 t2).traction_contribution|) ∧
       |(decomposeCornerDelta c1 c2 t1 t2).braking_contribution| ≠
        max |(decomposeCornerDelta c1 c2 t1 t2).braking_contribution|
          (max |(decomposeCornerDelta c1 c2 t1 t2).mid_corner_contribution|
            |(decomposeCornerDelta c1 c2 t1 t2).traction_contribution|) ∧
       |(decomposeCornerDelta c1 c2 t1 t2).mid_corner_contribution| ≠
        max |(decomposeCornerDelta c1 c2 t1 t2).braking_contribution|
          (max |(decomposeCornerDelta c1 c2 t1 t2).mid_corner_contribution|
            |(decomposeCornerDelta c1 c2 t1 t2).traction_contribution|))) :=
  dominantOf_spec |brakingDelta c1 c2| |midCornerDelta c1 c2| |tractionDelta c1 c2|

/-- Witness for C3: identical corners give zero contributions, hence a
neutral dominant phase. -/
theorem decompose_dominant_phase_spec_witness :
    (decomposeCornerDelta sampleCorner sampleCorner deltaTraceA
      deltaTraceA).dominant_phase = DeltaPhase.neutral :=
  (decompose_dominant_phase_spec sampleCorner sampleCorner deltaTraceA
      deltaTraceA).1.mpr
    (by norm_num [decomposeCornerDelta, brakingDelta, midCornerDelta, tractionDelta])

section BrakingZoneLemmas

/-- A property preserved by every step of a fold holds of the fold's
result. -/
theorem foldl_preserve {σ α : Type} (step : σ → α → σ) (P : σ → Prop)
    (hstep : ∀ s a, P s → P (step s a)) :
    ∀ (l : List α) (s : σ), P s → P (l.foldl step s) := by
  intro l
  induction l with
  | nil => intro s hs; exact hs
  | cons a t ih => intro s hs; exact ih (step s a) (hstep s a hs)

/-- Scanning over samples that are all braking never changes the
collected zones: zones are closed and recorded only at a
below-threshold sample. -/
theorem brakeScan_braking_zones_const (dist speed brake : ℕ → ℚ)
    (accel : Option (ℕ → ℚ)) (thr minLen minDrop : ℚ) :
    ∀ (l : List ℕ), (∀ i ∈ l, thr < brake i) → ∀ s : BrakeScanState,
      ((l.foldl (brakeScanStep dist speed brake accel thr minLen minDrop)
        s).zones = s.zones) := by
  intro l
  induction l with
  | nil => intro _ s; rfl
  | cons a t ih =>
    intro hl s
    have ha : thr < brake a := hl a (List.mem_cons_self a t)
    have hrest := ih (fun i hi => hl i (List.mem_cons_of_mem a hi))
    rw [List.foldl_cons,
      hrest (brakeScanStep dist speed brake accel thr minLen minDrop s a)]
    unfold brakeScanStep
    split_ifs with h1 h2 h3
    · rfl
    · exact absurd ha h2.1
    · exact absurd ha h2.1
    · rfl

end BrakingZoneLemmas

/-- C8: every detected braking zone spans at least `min_zone_length`
meters and drops at least `min_speed_drop` from entry to minimum speed
(rejected candidates never appear), and the emitted zones carry the
sequential ids `1, 2, ...` in the order the zones close (rejected
candidates consume no id). -/
theorem detect_braking_zones_filter_and_ids (dist speed brake : ℕ → ℚ)
    (accel : Option (ℕ → ℚ)) (thr minLen minDrop : ℚ) (m : ℕ) :
    (∀ z ∈ detectBrakingZones dist speed brake accel thr minLen minDrop m,
      minLen ≤ z.end_distance - z.start_distance ∧
      minDrop ≤ z.entry_speed - z.min_speed) ∧
    (detectBrakingZones dist speed brake accel thr minLen minDrop m).map
        BrakingZone.zone_id =
      List.range' 1 (detectBrakingZones dist speed brake accel thr minLen
        minDrop m).length := by
  have hstep : ∀ (s : BrakeScanState) (i : ℕ),
      (s.zone_id = s.zones.length + 1 ∧
       s.zones.map BrakingZone.zone_id = List.range' 1 s.zones.length ∧
       ∀ z ∈ s.zones, minLen ≤ z.end_distance - z.start_distance ∧
         minDrop ≤ z.entry_speed - z.min_speed) →
      (let s' := brakeScanStep dist speed brake accel thr minLen minDrop s i
       s'.zone_id = s'.zones.length + 1 ∧
       s'.zones.map BrakingZone.zone_id = List.range' 1 s'.zones.length ∧
       ∀ z ∈ s'.zones, minLen ≤ z.end_distance - z.start_distance ∧
         minDrop ≤ z.entry_speed - z.min_speed) := by
    intro s i hP
    obtain ⟨hid, hmap, hall⟩ := hP
    unfold brakeScanStep
    split_ifs with h1 h2 h3
    · exact ⟨hid, hmap, hall⟩
    · refine ⟨?_, ?_, ?_⟩
      · simp only [List.length_append, List.length_cons, List.length_nil]
        omega
      · simp only [List.map_append, List.map_cons, List.map_nil,
          List.length_append, List.length_cons, List.length_nil,
          mkBrakingZone]
        rw [hmap, hid]
        have e1 : s.zones.length + 0 + 1 = s.zones.length + 1 := by omega
        rw [e1, List.range'_1_concat, Nat.add_comm 1 s.zones.length]
      · intro z hz
        rcases List.mem_append.mp hz with h | h
        · exact hall z h
        · rcases List.mem_singleton.mp h with rfl
          exact ⟨h3.1, h3.2⟩
    · exact ⟨hid, hmap, hall⟩
    · exact ⟨hid, hmap, hall⟩
  have final := foldl_preserve
    (brakeScanStep dist speed brake accel thr minLen minDrop)
    (fun s => s.zone_id = s.zones.length + 1 ∧
      s.zones.map BrakingZone.zone_id = List.range' 1 s.zones.length ∧
      ∀ z ∈ s.zones, minLen ≤ z.end_distance - z.start_distance ∧
        minDrop ≤ z.entry_speed - z.min_speed)
    hstep (List.range' 1 (m - 1))
    { in_zone := false, zone_start_idx := 0, zone_id := 1, zones := [] }
    ⟨rfl, rfl, by intro z hz; cases hz⟩
  exact ⟨final.2.2, final.2.1⟩

/-- Witness for C8: a concrete six-sample trace with one qualifying
zone; the zone satisfies both thresholds and the id list is `[1]`. -/
theorem detect_braking_zones_filter_and_ids_witness :
    (20 ≤ (mkBrakingZone distCol10 speedColDrop none 1 1 4).end_distance -
        (mkBrakingZone distCol10 speedColDrop none 1 1 4).start_distance ∧
     20 ≤ (mkBrakingZone distCol10 speedColDrop none 1 1 4).entry_speed -
        (mkBrakingZone distCol10 speedColDrop none 1 1 4).min_speed) ∧
    (detectBrakingZones distCol10 speedColDrop brakeColClosed none
        10 20 20 6).map BrakingZone.zone_id =
      List.range' 1 (detectBrakingZones distCol10 speedColDrop brakeColClosed
        none 10 20 20 6).length := by
  have hlist : detectBrakingZones distCol10 speedColDrop brakeColClosed none
      10 20 20 6 = [mkBrakingZone distCol10 speedColDrop none 1 1 4] := by
    unfold detectBrakingZones
    norm_num [show List.range' 1 5 = [1, 2, 3, 4, 5] from rfl, List.foldl_cons,
      List.foldl_nil, brakeScanStep, brakeColClosed, distCol10, speedColDrop,
      sliceMin, List.range']
  exact ⟨(detect_braking_zones_filter_and_ids distCol10 speedColDrop
      brakeColClosed none 10 20 20 6).1 _
      (by rw [hlist]; exact List.mem_singleton_self _),
    (detect_braking_zones_filter_and_ids distCol10 speedColDrop brakeColClosed
      none 10 20 20 6).2⟩

/-- C10: a braking region that is still active at the last sample (brake
above threshold from index `k` through the trace end) contributes no
zone: the scan of the full trace returns exactly the zones of the trace
truncated at `k`. -/
theorem detect_braking_zones_open_region (dist speed brake : ℕ → ℚ)
    (accel : Option (ℕ → ℚ)) (thr minLen minDrop : ℚ) (k n : ℕ)
    (hk : 1 ≤ k) (hkn : k ≤ n)
    (hbr : ∀ i, k ≤ i → i < n → thr < brake i) :
    detectBrakingZones dist speed brake accel thr minLen minDrop n =
      detectBrakingZones dist speed brake accel thr minLen minDrop k := by
  unfold detectBrakingZones
  have hsplit : List.range' 1 (n - 1) =
      List.range' 1 (k - 1) ++ List.range' k (n - k) := by
    have h := List.range'_append_1 1 (k - 1) (n - k)
    have e1 : 1 + (k - 1) = k := by omega
    have e2 : (n - k) + (k - 1) = n - 1 := by omega
    rw [e1, e2] at h
    exact h.symm
  have hall : ∀ i ∈ List.range' k (n - k), thr < brake i := by
    intro i hi
    have h' := List.mem_range'_1.mp hi
    exact hbr i h'.1 (by omega)
  rw [hsplit, List.foldl_append]
  exact brakeScan_braking_zones_const dist speed brake accel thr minLen minDrop
    (List.range' k (n - k)) hall _

/-- Witness for C10: braking stays above the threshold from sample 1
through the end of a five-sample trace whose candidate zone would pass
both the length and the speed-drop checks, yet no zone is emitted. -/
theorem detect_braking_zones_open_region_witness :
    detectBrakingZones distCol10 speedColDrop brakeColOpen none 10 20 20 5 = [] := by
  have h := detect_braking_zones_open_region distCol10 speedColDrop brakeColOpen
    none 10 20 20 1 5 (le_refl 1) (by omega)
    (fun i hi1 _ => by
      show (10 : ℚ) < brakeColOpen i
      unfold brakeColOpen
      rw [if_neg (by omega)]
      norm_num)
  rw [h]
  rfl
